import Mathlib

/-!
Shallow embedding of the ricochet-go peer connection core, covering the
conversation backlog (message validation, appending, updating, trimming,
read-marking) and the per-contact connection agent (duel resolution,
connection assignment, the connection loop guard).  Definitions are
translated from the Go source; theorems settle the specification claims.
-/

set_option maxRecDepth 4000

namespace Ricochet

/-- Message status enum from the RPC protobuf (`ricochet.Message_Status`). -/
inductive MessageStatus
  | NULL
  | SENDING
  | QUEUED
  | SENT
  | DELIVERED
  | READ
  | UNREAD
  | ERROR
  deriving DecidableEq, Repr

/-- `ricochet.Entity`: one endpoint of a message. -/
structure Entity where
  isSelf : Bool
  address : String
  deriving DecidableEq, Repr

/-- `ricochet.Message`.  Sender and recipient are optional, mirroring the
nullable protobuf pointers checked by `validateMessage`. -/
structure Message where
  sender : Option Entity
  recipient : Option Entity
  text : String
  status : MessageStatus
  identifier : Nat
  deriving DecidableEq, Repr

/-- `maxMessageTextLength` constant. -/
def maxMessageTextLength : Nat := 2000

/-- `backlogContextNum` constant. -/
def backlogContextNum : Nat := 3

/-- `backlogSoftLimit` constant. -/
def backlogSoftLimit : Nat := 100

/-- `backlogHardLimit` constant. -/
def backlogHardLimit : Nat := 200

/-- State of a `Conversation`: the backlog, the unread counter (a Go `int`,
so modelled as `Int`), and the active flag.  The identity address of the
local client and the contact address are carried alongside, standing for
`c.Client.Identity.Address` and `c.Contact.Data.Address`. -/
structure Conversation where
  identityAddress : String
  contactAddress : String
  messages : List Message
  numUnread : Int
  active : Bool
  deriving DecidableEq, Repr

/-- `Conversation.validateMessage`: well-formedness check, returning the Go
error string on failure. -/
def validateMessage (c : Conversation) (msg : Message) : Except String Unit :=
  match msg.sender, msg.recipient with
  | none, _ => .error "Message entities are incomplete"
  | _, none => .error "Message entities are incomplete"
  | some sender, some recipient =>
    let localEntity := if sender.isSelf then sender else recipient
    let remoteEntity := if sender.isSelf then recipient else sender
    if !localEntity.isSelf ||
        (localEntity.address.length > 0 && localEntity.address != c.identityAddress) then
      .error "Invalid self entity on message"
    else if remoteEntity.isSelf || remoteEntity.address != c.contactAddress then
      .error "Invalid remote entity on message"
    else if msg.status = MessageStatus.NULL then
      .error "Message has null status"
    else if msg.text.length = 0 || msg.text.length > maxMessageTextLength then
      .error "Message text is unacceptable"
    else
      .ok ()

/-- Number of UNREAD messages in a list (`recountUnread` computes this). -/
def countUnread (msgs : List Message) : Nat :=
  (msgs.filter (fun m => m.status = MessageStatus.UNREAD)).length

/-- The loop body of `trimBacklog` that finds `keepIndex`: walk the backlog
from the front; at the first UNREAD message keep from `i - backlogContextNum`
(clamped at 0), and otherwise, once `len - i <= backlogSoftLimit`, keep from
`i`.  `total` is the length of the whole backlog; `i` is the current index.
Returns `none` when the loop runs out without a break (then `keepIndex`
retains its zero initialisation). -/
def findKeepIndexAux (total : Nat) : List Message → Nat → Option Nat
  | [], _ => none
  | m :: rest, i =>
    if m.status = MessageStatus.UNREAD then
      some (i - backlogContextNum)
    else if total - i ≤ backlogSoftLimit then
      some i
    else
      findKeepIndexAux total rest (i + 1)

/-- `keepIndex` as computed by the loop in `trimBacklog` (initialised to 0). -/
def findKeepIndex (msgs : List Message) : Nat :=
  (findKeepIndexAux msgs.length msgs 0).getD 0

/-- `Conversation.trimBacklog`: first the hard-limit stage (unconditionally
drop down to `backlogHardLimit` and recount unread), then — not `else` —
the soft-limit stage (drop everything before `keepIndex`). -/
def trimBacklog (c : Conversation) : Conversation :=
  let c :=
    if c.messages.length > backlogHardLimit then
      let kept := c.messages.drop (c.messages.length - backlogHardLimit)
      { c with messages := kept, numUnread := (countUnread kept : Int) }
    else c
  if c.messages.length ≤ backlogSoftLimit then c
  else { c with messages := c.messages.drop (findKeepIndex c.messages) }

/-- `Conversation.AddMessage` (state part): validate, append, bump the
unread counter for an UNREAD message, then trim.  The printing and
mark-as-read side effects do not touch the conversation state. -/
def AddMessage (c : Conversation) (msg : Message) : Conversation :=
  match validateMessage c msg with
  | .error _ => c
  | .ok _ =>
    trimBacklog { c with
      messages := c.messages ++ [msg],
      numUnread := c.numUnread + (if msg.status = MessageStatus.UNREAD then 1 else 0) }

/-- Whether a stored message matches the update in `UpdateMessage`:
same sender direction (`Sender.IsSelf`) and same identifier.  Validated
messages always carry a sender; a missing sender is treated as inbound. -/
def messageMatches (m upd : Message) : Bool :=
  (m.sender.map Entity.isSelf).getD false == (upd.sender.map Entity.isSelf).getD false
    && m.identifier == upd.identifier

/-- The scan of `UpdateMessage`: walk from the end of the backlog, replace
the first match with `upd`, and report whether the replaced message was
UNREAD while the update is not (the only case in which the counter is
adjusted).  Returns `none` when no message matches. -/
def replaceLastMatch (upd : Message) : List Message → Option (List Message × Bool)
  | [] => none
  | m :: rest =>
    match replaceLastMatch upd rest with
    | some (rest', dec) => some (m :: rest', dec)
    | none =>
      if messageMatches m upd then
        some (upd :: rest,
          m.status = MessageStatus.UNREAD && upd.status ≠ MessageStatus.UNREAD)
      else
        none

/-- `Conversation.UpdateMessage`: validate, then replace the newest message
with matching direction and identifier, decrementing `numUnread` exactly
when the replaced message was UNREAD and the update is not. -/
def UpdateMessage (c : Conversation) (upd : Message) : Conversation :=
  match validateMessage c upd with
  | .error _ => c
  | .ok _ =>
    match replaceLastMatch upd c.messages with
    | none => c
    | some (msgs, dec) =>
      { c with messages := msgs, numUnread := c.numUnread - (if dec then 1 else 0) }

/-- Outcome of `Conversation.MarkAsRead` and `MarkAsReadBefore`: either no
RPC is dispatched, or `MarkConversationRead` is dispatched with the sender
entity address and the identifier, or an error is returned. -/
inductive MarkAsReadOutcome
  | noDispatch
  | dispatched (senderAddress : String) (lastRecvIdentifier : Nat)
  | failed (err : String)
  deriving DecidableEq, Repr

/-- The downward loop of `MarkAsRead`, expressed on the reversed backlog:
the first UNREAD message (scanning newest to oldest) is selected; the scan
stops empty at the first READ message; every other status is skipped. -/
def scanForLastRecv : List Message → Option Message
  | [] => none
  | m :: rest =>
    if m.status = MessageStatus.UNREAD then some m
    else if m.status = MessageStatus.READ then none
    else scanForLastRecv rest

/-- `Conversation.MarkAsReadBefore`: validate the message, reject self-sent
messages, otherwise dispatch `MarkConversationRead` with the sender entity
and the identifier.  Validation guarantees the sender is present. -/
def MarkAsReadBefore (c : Conversation) (m : Message) : MarkAsReadOutcome :=
  match validateMessage c m with
  | .error e => .failed e
  | .ok _ =>
    if (m.sender.map Entity.isSelf).getD false then
      .failed "Outbound messages cannot be marked as read"
    else
      .dispatched ((m.sender.map Entity.address).getD "") m.identifier

/-- `Conversation.MarkAsRead`: scan for the last received unread message and
dispatch `MarkAsReadBefore` on it; with no such message, return nil. -/
def MarkAsRead (c : Conversation) : MarkAsReadOutcome :=
  match scanForLastRecv c.messages.reverse with
  | none => .noDispatch
  | some m => MarkAsReadBefore c m

/-- The scan of `MarkAsRead` as the specification sentence words it:
select the most recent UNREAD message, stopping at the first READ message
or at the first self-sent message.  Stated only to compare with the scan
the code performs (`scanForLastRecv`). -/
def scanForLastRecvSpec : List Message → Option Message
  | [] => none
  | m :: rest =>
    if m.status = MessageStatus.READ || (m.sender.map Entity.isSelf).getD false then
      none
    else if m.status = MessageStatus.UNREAD then some m
    else scanForLastRecvSpec rest

/-- `ricochet.Contact_Status` enum. -/
inductive ContactStatus
  | UNKNOWN
  | OFFLINE
  | ONLINE
  | REQUEST
  | REJECTED
  deriving DecidableEq, Repr

/-- `protocol.OpenConnection`, as used by the contact agent.  The `id`
field stands for the Go pointer identity of the session object; `client`
is true for a connection we dialed. -/
structure OpenConnection where
  id : Nat
  client : Bool
  isAuthed : Bool
  closed : Bool
  myHostname : String
  otherHostname : String
  deriving DecidableEq, Repr

/-- `Close()` on a session, as far as the session object itself is
concerned: the closed flag becomes set. -/
def OpenConnection.doClose (conn : OpenConnection) : OpenConnection :=
  { conn with closed := true }

/-- `ConfigContactRequest` persisted block. -/
structure ConfigContactRequest where
  pending : Bool
  myNickname : String
  message : String
  whenDelivered : String
  whenRejected : String
  remoteError : String
  deriving DecidableEq, Repr

/-- The zero value `ConfigContactRequest{}`. -/
def ConfigContactRequest.empty : ConfigContactRequest :=
  ⟨false, "", "", "", "", ""⟩

/-- `ConfigContact` persisted fields. -/
structure ConfigContact where
  hostname : String
  nickname : String
  whenCreated : String
  lastConnected : String
  request : ConfigContactRequest
  deriving DecidableEq, Repr

/-- Mutable state of a `Contact`: its data, status, whether the connection
loop is enabled, the current connection, the adoption time of the current
connection (`timeConnected`, in seconds), the remembered
`outboundConnAuthKnown` flag, and the copy of the data last written to the
config store (`config.Contacts[id]`). -/
structure ContactState where
  data : ConfigContact
  status : ContactStatus
  connEnabled : Bool
  connection : Option OpenConnection
  timeConnected : Nat
  outboundConnAuthKnown : Bool
  configData : ConfigContact
  deriving DecidableEq, Repr

/-- `Contact.shouldMakeOutboundConnections`: no dials to REJECTED contacts,
otherwise follow `connEnabled`. -/
def shouldMakeOutboundConnections (c : ContactState) : Bool :=
  if c.status = ContactStatus.REJECTED then false
  else c.connEnabled

/-- `Contact.shouldReplaceConnection`: decide whether the candidate `conn`
replaces the current connection.  `now - c.timeConnected` is
`time.Since(c.timeConnected)` in seconds; the Go string comparison
`conn.MyHostname < conn.OtherHostname` is byte-lexicographic, embedded as
the lexicographic order on the character data. -/
def shouldReplaceConnection (c : ContactState) (conn : OpenConnection) (now : Nat) : Bool :=
  match c.connection with
  | none => true
  | some cur =>
    if cur.closed then true
    else if cur.client == conn.client then true
    else if now - c.timeConnected > 30 then true
    else if (decide (conn.myHostname.data < conn.otherHostname.data)) == conn.client then
      true
    else false

/-- `Contact.updateContactRequest` (mutex already held): update the request
block for the given status string, then persist `c.data` to the config
store.  Returns the new state and whether the request channel stays open. -/
def updateContactRequest (c : ContactState) (status : String) (nowStr : String) :
    ContactState × Bool :=
  let c :=
    if status = "Pending" then
      { c with data := { c.data with request := { c.data.request with whenDelivered := nowStr } } }
    else if status = "Accepted" then
      { c with data := { c.data with request := ConfigContactRequest.empty },
               status := if c.connection.isSome then ContactStatus.ONLINE
                 else ContactStatus.UNKNOWN }
    else if status = "Rejected" then
      { c with data := { c.data with request := { c.data.request with whenRejected := nowStr } } }
    else if status = "Error" then
      { c with data := { c.data with request :=
          { c.data.request with whenRejected := nowStr, remoteError := "error occurred" } } }
    else c
  ({ c with configData := c.data }, status = "Pending")

/-- Result of `Contact.setConnection`: the contact state afterwards, the
candidate connection object afterwards, the returned error if any, whether
a ContactEvent UPDATE was published, and whether an outbound contact
request message was sent on the new connection. -/
structure SetConnOutcome where
  contact : ContactState
  conn : OpenConnection
  err : Option String
  publishedUpdate : Bool
  sentContactRequest : Bool
  deriving DecidableEq, Repr

/-- The tail of `Contact.setConnection` after all checks passed: assign the
connection, handle a pending contact request or set status ONLINE, stamp
`timeConnected` and `LastConnected`, persist, publish an UPDATE event. -/
def adoptConnection (c : ContactState) (conn : OpenConnection) (now : Nat) (nowStr : String) :
    SetConnOutcome :=
  let c := { c with connection := some conn }
  let step :=
    if c.data.request.pending then
      if conn.client && !c.outboundConnAuthKnown then
        (c, true)
      else
        ((updateContactRequest c "Accepted" nowStr).1, false)
    else
      ({ c with status := ContactStatus.ONLINE }, false)
  let c := step.1
  let c := { c with timeConnected := now, data := { c.data with lastConnected := nowStr } }
  let c := { c with configData := c.data }
  ⟨c, conn, none, true, step.2⟩

/-- `Contact.setConnection`: the guarded assignment of a freshly
authenticated connection.  Pointer equality `conn == c.connection` is
modelled through the `id` field; `c.data.Hostname[0:16]` is
`String.take 16`. -/
def setConnection (c : ContactState) (conn : OpenConnection) (now : Nat) (nowStr : String) :
    SetConnOutcome :=
  if c.connection.map OpenConnection.id = some conn.id then
    ⟨c, conn, some "Duplicate assignment of connection", false, false⟩
  else if !conn.isAuthed || conn.closed then
    ⟨c, conn.doClose, some "Connection is not in a valid state to assign", false, false⟩
  else if c.data.hostname.take 16 ≠ conn.otherHostname then
    ⟨c, conn.doClose, some "Connection hostname does not match contact hostname", false, false⟩
  else if conn.client && !c.outboundConnAuthKnown && !c.data.request.pending then
    ⟨c, conn.doClose, some "Outbound connection says we are not a known contact", false, false⟩
  else
    match c.connection with
    | some _ =>
      if shouldReplaceConnection c conn now then
        adoptConnection { c with connection := none } conn now nowStr
      else
        ⟨c, conn.doClose, some "Using existing connection", false, false⟩
    | none => adoptConnection c conn now nowStr

/-- `Contact.clearConnection` with an `ifConn` pointer filter: clear the
current connection (if it matches the filter), move to OFFLINE, stamp and
persist `LastConnected`, close the old connection and publish an UPDATE
event.  Returns the new state and whether anything was cleared. -/
def clearConnection (c : ContactState) (ifConn : Option Nat) (nowStr : String) :
    ContactState × Bool :=
  match c.connection with
  | none => (c, false)
  | some cur =>
    if ifConn.isSome && ifConn ≠ some cur.id then (c, false)
    else
      let d := { c.data with lastConnected := nowStr }
      let c := { c with connection := none, status := ContactStatus.OFFLINE, data := d }
      ({ c with configData := c.data }, true)

/-- One wake-up of the `contactConnection` select loop. -/
inductive LoopEvent
  | connReceived (conn : OpenConnection)
  | connNil
  | channelClosed
  | connClosed
  deriving DecidableEq, Repr

/-- Result of one iteration of the connection loop: the contact state, the
decision (taken at the top of the iteration) to spawn an outbound dial,
whether the loop exits, and whether a ContactEvent UPDATE was published. -/
structure LoopStepOutcome where
  contact : ContactState
  dialSpawned : Bool
  exited : Bool
  publishedUpdate : Bool
  deriving DecidableEq, Repr

/-- One iteration of `Contact.contactConnection`: an outbound connector is
spawned only when there is no connection and
`shouldMakeOutboundConnections` returns true; then the iteration handles
one event.  A closed channel exits the loop and runs the trailing
`clearConnection(nil)`; a nil connection restarts; a received connection
goes through `setConnection`; a close signal runs `clearConnection(nil)`. -/
def contactConnectionStep (c : ContactState) (ev : LoopEvent) (now : Nat) (nowStr : String) :
    LoopStepOutcome :=
  let dial := c.connection.isNone && shouldMakeOutboundConnections c
  match ev with
  | .channelClosed =>
    let r := clearConnection c none nowStr
    ⟨r.1, dial, true, r.2⟩
  | .connNil => ⟨c, dial, false, false⟩
  | .connReceived conn =>
    let o := setConnection c conn now nowStr
    ⟨o.contact, dial, false, o.publishedUpdate⟩
  | .connClosed =>
    let r := clearConnection c none nowStr
    ⟨r.1, dial, false, r.2⟩

/-! Concrete instances used to evaluate the model: a conversation between
the local identity `alice` and the contact `bob`, with inbound and outbound
messages of a given status and identifier. -/

/-- An inbound message (from the contact) with the given status. -/
def mkInbound (st : MessageStatus) (ident : Nat) : Message :=
  ⟨some ⟨false, "bob"⟩, some ⟨true, "alice"⟩, "x", st, ident⟩

/-- An outbound (self-sent) message with the given status. -/
def mkOutbound (st : MessageStatus) (ident : Nat) : Message :=
  ⟨some ⟨true, "alice"⟩, some ⟨false, "bob"⟩, "x", st, ident⟩

/-- A conversation between `alice` (identity) and `bob` (contact) holding
the given backlog and unread counter. -/
def mkConv (msgs : List Message) (nu : Int) : Conversation :=
  ⟨"alice", "bob", msgs, nu, false⟩

/-- On a message that is otherwise valid for its conversation, the only
remaining check of `validateMessage` is the text length bound. -/
theorem validateMessage_otherwise_valid (c : Conversation) (msg : Message)
    (sender recipient : Entity)
    (hs : msg.sender = some sender) (hr : msg.recipient = some recipient)
    (hl : (if sender.isSelf then sender else recipient).isSelf = true)
    (hla : (if sender.isSelf then sender else recipient).address.length = 0 ∨
      (if sender.isSelf then sender else recipient).address = c.identityAddress)
    (hre : (if sender.isSelf then recipient else sender).isSelf = false)
    (hra : (if sender.isSelf then recipient else sender).address = c.contactAddress)
    (hst : msg.status ≠ MessageStatus.NULL) :
    validateMessage c msg =
      (if msg.text.length = 0 || msg.text.length > maxMessageTextLength
       then .error "Message text is unacceptable" else .ok ()) := by
  unfold validateMessage
  rw [hs, hr]
  cases hself : sender.isSelf
  case true =>
    rw [if_pos hself] at hl hla hra hre
    simp only [hself, if_true]
    have h1 : (!true ||
        (decide (sender.address.length > 0) && sender.address != c.identityAddress)) = false := by
      rcases hla with h | h
      · simp [h]
      · simp [h]
    rw [h1]
    simp only [Bool.false_eq_true, if_false]
    rw [hre, hra]
    simp only [Bool.false_or, bne_self_eq_false, Bool.false_eq_true, if_false]
    rw [if_neg hst]
  case false =>
    rw [if_neg (by simp [hself])] at hl hla hra hre
    simp only [hself, Bool.false_eq_true, if_false]
    rw [hl]
    have h1 : (!true ||
        (decide (recipient.address.length > 0) && recipient.address != c.identityAddress)) = false := by
      rcases hla with h | h
      · simp [h]
      · simp [h]
    rw [h1]
    simp only [Bool.false_eq_true, if_false]
    rw [hra]
    simp only [Bool.false_or, bne_self_eq_false, Bool.false_eq_true, if_false]
    rw [if_neg hst]

/-- CLAIM C9.  For every message that is otherwise valid for its
conversation (sender and recipient present, well-formed self and remote
entities, non-NULL status), `validateMessage` accepts text of length 1 and
of length 2000 and rejects text of length 0 and of length 2001, returning
an error in the rejecting cases. -/
theorem claim_C9_validate_text_bounds (c : Conversation) (msg : Message)
    (sender recipient : Entity)
    (hs : msg.sender = some sender) (hr : msg.recipient = some recipient)
    (hl : (if sender.isSelf then sender else recipient).isSelf = true)
    (hla : (if sender.isSelf then sender else recipient).address.length = 0 ∨
      (if sender.isSelf then sender else recipient).address = c.identityAddress)
    (hre : (if sender.isSelf then recipient else sender).isSelf = false)
    (hra : (if sender.isSelf then recipient else sender).address = c.contactAddress)
    (hst : msg.status ≠ MessageStatus.NULL) :
    (msg.text.length = 1 → validateMessage c msg = .ok ()) ∧
    (msg.text.length = 2000 → validateMessage c msg = .ok ()) ∧
    (msg.text.length = 0 → ∃ e, validateMessage c msg = .error e) ∧
    (msg.text.length = 2001 → ∃ e, validateMessage c msg = .error e) := by
  have key := validateMessage_otherwise_valid c msg sender recipient hs hr hl hla hre hra hst
  refine ⟨fun h => ?_, fun h => ?_, fun h => ?_, fun h => ?_⟩ <;>
    rw [key, h] <;> simp [maxMessageTextLength]

/-- Witness for C9: the concrete one-character inbound message is accepted
and the empty-text message is rejected. -/
theorem claim_C9_witness :
    validateMessage (mkConv [] 0) (mkInbound MessageStatus.READ 1) = .ok () ∧
    ∃ e, validateMessage (mkConv [] 0)
      { mkInbound MessageStatus.READ 1 with text := "" } = .error e := by
  constructor
  · exact (claim_C9_validate_text_bounds (mkConv [] 0) (mkInbound MessageStatus.READ 1)
      ⟨false, "bob"⟩ ⟨true, "alice"⟩ rfl rfl rfl (by right; rfl) rfl rfl (by decide)).1 rfl
  · exact (claim_C9_validate_text_bounds (mkConv [] 0)
      { mkInbound MessageStatus.READ 1 with text := "" }
      ⟨false, "bob"⟩ ⟨true, "alice"⟩ rfl rfl rfl (by right; rfl) rfl rfl (by decide)).2.2.1 rfl

/-- Index of the oldest UNREAD message in a backlog, if any. -/
def firstUnreadIdx : List Message → Option Nat
  | [] => none
  | m :: rest =>
    if m.status = MessageStatus.UNREAD then some 0
    else (firstUnreadIdx rest).map (· + 1)

/-- Characterisation of the `keepIndex` loop when the suffix `l` (starting
at absolute index `i` of a backlog of `total` messages) contains an UNREAD
message: the loop breaks at the oldest UNREAD index or at `total - 100`,
whichever comes first. -/
theorem findKeepIndexAux_firstUnread (total : Nat) :
    ∀ (l : List Message) (i p : Nat), firstUnreadIdx l = some p →
      i + l.length = total → i + backlogSoftLimit ≤ total →
      findKeepIndexAux total l i =
        some (if i + p + backlogSoftLimit ≤ total then i + p - backlogContextNum
          else total - backlogSoftLimit) := by
  intro l
  induction l with
  | nil => intro i p hp _ _; simp [firstUnreadIdx] at hp
  | cons m rest ih =>
    intro i p hp hlen hsoft
    by_cases hm : m.status = MessageStatus.UNREAD
    · have hp0 : p = 0 := by
        simp [firstUnreadIdx, hm] at hp
        omega
      subst hp0
      rw [findKeepIndexAux, if_pos hm, if_pos (by omega)]
      simp
    · have hrest : ∃ q, firstUnreadIdx rest = some q ∧ p = q + 1 := by
        simp only [firstUnreadIdx, if_neg hm] at hp
        cases hq : firstUnreadIdx rest with
        | none => rw [hq] at hp; simp at hp
        | some q => rw [hq] at hp; simp at hp; exact ⟨q, rfl, by omega⟩
      obtain ⟨q, hq, hpq⟩ := hrest
      rw [findKeepIndexAux, if_neg hm]
      by_cases hbr : total - i ≤ backlogSoftLimit
      · rw [if_pos hbr]
        have hi : i = total - backlogSoftLimit := by
          unfold backlogSoftLimit at *; omega
        rw [if_neg (by unfold backlogSoftLimit at *; omega), hi]
      · rw [if_neg hbr]
        have := ih (i + 1) q hq (by simp at hlen; omega)
          (by unfold backlogSoftLimit at *; omega)
        rw [this]
        have harith : i + 1 + q = i + p := by omega
        rw [harith]

/-- Unread count of a cons cell. -/
theorem countUnread_cons (m : Message) (xs : List Message) :
    countUnread (m :: xs) =
      (if m.status = MessageStatus.UNREAD then 1 else 0) + countUnread xs := by
  by_cases hm : m.status = MessageStatus.UNREAD
  · simp [countUnread, List.filter_cons, hm]
    omega
  · simp [countUnread, List.filter_cons, hm]

/-- Unread count distributes over append. -/
theorem countUnread_append (xs ys : List Message) :
    countUnread (xs ++ ys) = countUnread xs + countUnread ys := by
  simp [countUnread, List.filter_append]

/-- The messages dropped by the soft-limit stage all precede the loop
break point, so none of them is UNREAD. -/
theorem findKeepIndexAux_take_no_unread (total : Nat) :
    ∀ (l : List Message) (i k : Nat), findKeepIndexAux total l i = some k →
      countUnread (l.take (k - i)) = 0 := by
  intro l
  induction l with
  | nil => intro i k hk; simp [findKeepIndexAux] at hk
  | cons m rest ih =>
    intro i k hk
    rw [findKeepIndexAux] at hk
    by_cases hm : m.status = MessageStatus.UNREAD
    · rw [if_pos hm] at hk
      have hki : k = i - backlogContextNum := (Option.some.inj hk).symm
      have h0 : k - i = 0 := by unfold backlogContextNum at hki; omega
      rw [h0]
      simp [countUnread]
    · rw [if_neg hm] at hk
      by_cases hbr : total - i ≤ backlogSoftLimit
      · rw [if_pos hbr] at hk
        have hki : k = i := (Option.some.inj hk).symm
        have h0 : k - i = 0 := by omega
        rw [h0]
        simp [countUnread]
      · rw [if_neg hbr] at hk
        have := ih (i + 1) k hk
        cases hn : k - i with
        | zero => simp [countUnread]
        | succ n =>
          rw [List.take_succ_cons, countUnread_cons, if_neg hm]
          have hn' : n = k - (i + 1) := by omega
          rw [hn', this]

/-- The soft-limit stage never drops an UNREAD message: the unread count
of the kept suffix equals that of the whole backlog. -/
theorem countUnread_drop_findKeepIndex (msgs : List Message) :
    countUnread (msgs.drop (findKeepIndex msgs)) = countUnread msgs := by
  have htake : countUnread (msgs.take (findKeepIndex msgs)) = 0 := by
    unfold findKeepIndex
    cases hk : findKeepIndexAux msgs.length msgs 0 with
    | none => simp [countUnread]
    | some k =>
      have := findKeepIndexAux_take_no_unread msgs.length msgs 0 k hk
      simpa using this
  have hsplit := countUnread_append (msgs.take (findKeepIndex msgs))
    (msgs.drop (findKeepIndex msgs))
  rw [List.take_append_drop] at hsplit
  omega

/-- When the backlog is over the soft limit but within the hard limit,
`trimBacklog` reduces to dropping the prefix before `keepIndex`. -/
theorem trimBacklog_soft (c : Conversation)
    (hlen : backlogSoftLimit < c.messages.length)
    (hle : c.messages.length ≤ backlogHardLimit) :
    trimBacklog c = { c with messages := c.messages.drop (findKeepIndex c.messages) } := by
  have h1 : ¬ (c.messages.length > backlogHardLimit) := by omega
  have h2 : ¬ (c.messages.length ≤ backlogSoftLimit) := by omega
  simp only [trimBacklog, if_neg h1, if_neg h2]

/-- A backlog of 100 messages whose only UNREAD message sits at index 50:
the concrete scenario named by the claim. -/
def exC2conv : Conversation :=
  mkConv (List.replicate 50 (mkInbound MessageStatus.READ 1) ++
    mkInbound MessageStatus.UNREAD 2 :: List.replicate 49 (mkInbound MessageStatus.READ 3)) 1

/-- COUNTEREXAMPLE to C2.  Appending one message to a backlog of 100 whose
only UNREAD message is at index 50 does not keep the messages from index
47 onward: the code keeps the messages from index 1 onward (trimming to
the soft limit), because the keep-index loop breaks on the
`len - i <= softLimit` branch before it ever reaches the unread message. -/
theorem claim_C2_counterexample :
    (AddMessage exC2conv (mkInbound MessageStatus.READ 4)).messages =
      (exC2conv.messages ++ [mkInbound MessageStatus.READ 4]).drop 1 ∧
    (AddMessage exC2conv (mkInbound MessageStatus.READ 4)).messages ≠
      (exC2conv.messages ++ [mkInbound MessageStatus.READ 4]).drop 47 ∧
    firstUnreadIdx (exC2conv.messages ++ [mkInbound MessageStatus.READ 4]) = some 50 := by
  refine ⟨by decide, fun h => ?_, by decide⟩
  have hl := congrArg List.length h
  revert hl
  decide

/-- CLAIM C2, amended.  For a backlog with `100 < N ≤ 200` and oldest
UNREAD message at index `u`, trimming removes exactly the messages before
index `max(u − 3, 0)` when `u ≤ N − 100`, and exactly the messages before
index `N − 100` otherwise (the loop stops at the soft limit first). -/
theorem claim_C2_amended (c : Conversation) (u : Nat)
    (hlen : backlogSoftLimit < c.messages.length)
    (hle : c.messages.length ≤ backlogHardLimit)
    (hu : firstUnreadIdx c.messages = some u) :
    (trimBacklog c).messages = c.messages.drop
      (if u + backlogSoftLimit ≤ c.messages.length then u - backlogContextNum
       else c.messages.length - backlogSoftLimit) := by
  rw [trimBacklog_soft c hlen hle]
  have hk := findKeepIndexAux_firstUnread c.messages.length c.messages 0 u hu
    (by simp) (by omega)
  simp only [Nat.zero_add] at hk
  simp [findKeepIndex, hk]

/-- Witness for the amended C2: a backlog of 104 messages with the oldest
UNREAD at index 4 keeps everything from index `4 - 3 = 1` onward. -/
theorem claim_C2_witness :
    (trimBacklog (mkConv (List.replicate 4 (mkInbound MessageStatus.READ 1) ++
        mkInbound MessageStatus.UNREAD 2 :: List.replicate 99 (mkInbound MessageStatus.READ 3)) 1)).messages =
      (List.replicate 4 (mkInbound MessageStatus.READ 1) ++
        mkInbound MessageStatus.UNREAD 2 :: List.replicate 99 (mkInbound MessageStatus.READ 3)).drop 1 := by
  have h := claim_C2_amended (mkConv (List.replicate 4 (mkInbound MessageStatus.READ 1) ++
      mkInbound MessageStatus.UNREAD 2 :: List.replicate 99 (mkInbound MessageStatus.READ 3)) 1)
    4 (by decide) (by decide) (by decide)
  rwa [if_pos (by decide)] at h

/-- A backlog at or below the soft limit is left untouched by trimming. -/
theorem trimBacklog_small (c : Conversation)
    (hle : c.messages.length ≤ backlogSoftLimit) :
    trimBacklog c = c := by
  have h1 : ¬ (c.messages.length > backlogHardLimit) := by
    unfold backlogSoftLimit at hle; unfold backlogHardLimit; omega
  simp only [trimBacklog, if_neg h1, if_pos hle]

/-- A backlog of 201 messages whose oldest message is the only UNREAD one. -/
def exC3conv : Conversation :=
  mkConv (mkInbound MessageStatus.UNREAD 9 ::
    List.replicate 200 (mkInbound MessageStatus.READ 1)) 1

/-- COUNTEREXAMPLE to C3.  When the pre-trim length exceeds the hard limit
of 200, trimming can discard an UNREAD message: on a backlog of 201
messages whose only UNREAD message is the oldest, the hard-limit stage
drops it, leaving no UNREAD message at all. -/
theorem claim_C3_counterexample :
    countUnread exC3conv.messages = 1 ∧
    exC3conv.messages.length = 201 ∧
    countUnread (trimBacklog exC3conv).messages = 0 := by
  refine ⟨by decide, by decide, by decide⟩

/-- CLAIM C3, amended.  Whenever the pre-trim backlog length is at most
the hard limit of 200 (so only the soft-limit stage can act), no UNREAD
message is removed by trimming: the unread count of the backlog is
preserved.  (Above 200, the hard-limit stage discards the oldest messages
unconditionally, UNREAD or not.) -/
theorem claim_C3_amended (c : Conversation)
    (hle : c.messages.length ≤ backlogHardLimit) :
    countUnread (trimBacklog c).messages = countUnread c.messages := by
  by_cases hsmall : c.messages.length ≤ backlogSoftLimit
  · rw [trimBacklog_small c hsmall]
  · rw [trimBacklog_soft c (by omega) hle]
    exact countUnread_drop_findKeepIndex c.messages

/-- Witness for the amended C3: a backlog of 101 messages with one UNREAD
message keeps exactly one UNREAD message after trimming. -/
theorem claim_C3_witness :
    countUnread (trimBacklog (mkConv (List.replicate 50 (mkInbound MessageStatus.READ 1) ++
        mkInbound MessageStatus.UNREAD 2 :: List.replicate 50 (mkInbound MessageStatus.READ 3)) 1)).messages =
      countUnread (List.replicate 50 (mkInbound MessageStatus.READ 1) ++
        mkInbound MessageStatus.UNREAD 2 :: List.replicate 50 (mkInbound MessageStatus.READ 3)) :=
  claim_C3_amended (mkConv (List.replicate 50 (mkInbound MessageStatus.READ 1) ++
    mkInbound MessageStatus.UNREAD 2 :: List.replicate 50 (mkInbound MessageStatus.READ 3)) 1)
    (by decide)

/-- A backlog has no UNREAD message iff its unread count is zero. -/
theorem countUnread_eq_zero_iff (l : List Message) :
    countUnread l = 0 ↔ ∀ x ∈ l, x.status ≠ MessageStatus.UNREAD := by
  constructor
  · intro h x hx hst
    have : x ∈ List.filter (fun m => decide (m.status = MessageStatus.UNREAD)) l :=
      List.mem_filter.mpr ⟨hx, by simp [hst]⟩
    rw [countUnread, List.length_eq_zero] at h
    rw [h] at this
    exact absurd this (List.not_mem_nil x)
  · intro h
    rw [countUnread, List.length_eq_zero, List.filter_eq_nil_iff]
    intro a ha
    simp [h a ha]

/-- Dropping a prefix cannot create UNREAD messages. -/
theorem countUnread_drop_le (l : List Message) (k : Nat) :
    countUnread (l.drop k) ≤ countUnread l := by
  have := countUnread_append (l.take k) (l.drop k)
  rw [List.take_append_drop] at this
  omega

/-- The keep-index loop on a suffix with no UNREAD message breaks exactly
at absolute index `total - 100`. -/
theorem findKeepIndexAux_no_unread (total : Nat) :
    ∀ (l : List Message) (i : Nat), (∀ x ∈ l, x.status ≠ MessageStatus.UNREAD) →
      i + l.length = total → i + backlogSoftLimit ≤ total →
      findKeepIndexAux total l i = some (total - backlogSoftLimit) := by
  intro l
  induction l with
  | nil =>
    intro i hno hlen hsoft
    simp only [List.length_nil, Nat.add_zero] at hlen
    unfold backlogSoftLimit at hsoft
    omega
  | cons m rest ih =>
    intro i hno hlen hsoft
    have hm : ¬ m.status = MessageStatus.UNREAD := hno m (List.mem_cons_self m rest)
    rw [findKeepIndexAux, if_neg hm]
    by_cases hbr : total - i ≤ backlogSoftLimit
    · rw [if_pos hbr]
      have : i = total - backlogSoftLimit := by unfold backlogSoftLimit at *; omega
      rw [this]
    · rw [if_neg hbr]
      exact ih (i + 1) (fun x hx => hno x (List.mem_cons_of_mem m hx))
        (by simp at hlen; omega) (by unfold backlogSoftLimit at *; omega)

/-- Above the hard limit, `trimBacklog` is the hard-limit stage — drop the
oldest `N - 200` messages and recount unread — followed by the rest of the
trim on the result. -/
theorem trimBacklog_hard (c : Conversation)
    (h : backlogHardLimit < c.messages.length) :
    trimBacklog c = trimBacklog { c with
      messages := c.messages.drop (c.messages.length - backlogHardLimit),
      numUnread := (countUnread (c.messages.drop (c.messages.length - backlogHardLimit)) : Int) } := by
  have h1 : c.messages.length > backlogHardLimit := h
  have h2 : ¬ ((c.messages.drop (c.messages.length - backlogHardLimit)).length > backlogHardLimit) := by
    simp [List.length_drop]
    omega
  conv_lhs => rw [trimBacklog]
  conv_rhs => rw [trimBacklog]
  simp only [if_pos h1, if_neg h2]

/-- After any trim the backlog is within the hard limit. -/
theorem trimBacklog_length_le (c : Conversation) :
    (trimBacklog c).messages.length ≤ backlogHardLimit := by
  by_cases h : c.messages.length > backlogHardLimit
  · rw [trimBacklog]
    simp only [if_pos h]
    split
    next h2 =>
      simp only [List.length_drop]
      omega
    next h2 =>
      simp only [List.length_drop] at *
      unfold backlogSoftLimit backlogHardLimit at *
      omega
  · rw [trimBacklog]
    simp only [if_neg h]
    split
    next h2 => unfold backlogSoftLimit backlogHardLimit at *; omega
    next h2 =>
      simp only [List.length_drop]
      omega

/-- Within the hard limit, a backlog with no UNREAD message trims down to
at most the soft limit. -/
theorem trimBacklog_no_unread_le_soft_aux (c : Conversation)
    (h0 : countUnread c.messages = 0) (hle : c.messages.length ≤ backlogHardLimit) :
    (trimBacklog c).messages.length ≤ backlogSoftLimit := by
  by_cases hsmall : c.messages.length ≤ backlogSoftLimit
  · rw [trimBacklog_small c hsmall]
    exact hsmall
  · rw [trimBacklog_soft c (by omega) hle]
    have hk : findKeepIndex c.messages = c.messages.length - backlogSoftLimit := by
      rw [findKeepIndex, findKeepIndexAux_no_unread c.messages.length c.messages 0
        ((countUnread_eq_zero_iff c.messages).mp h0) (by simp) (by omega)]
      rfl
    simp only [hk, List.length_drop]
    omega

/-- A backlog of 201 READ messages, which the claim says should trim to
exactly 200. -/
def exC8conv : Conversation :=
  mkConv (List.replicate 201 (mkInbound MessageStatus.READ 1)) 0

/-- COUNTEREXAMPLE to C8.  On a pre-trim backlog of 201 messages the whole
trim does not discard exactly the oldest `201 - 200 = 1` messages: after
the hard-limit stage drops one message, the soft-limit stage also runs
(the two stages are sequential, not exclusive) and cuts the backlog of
READ messages down to 100. -/
theorem claim_C8_counterexample :
    exC8conv.messages.length = 201 ∧
    (trimBacklog exC8conv).messages.length = 100 ∧
    (trimBacklog exC8conv).messages ≠
      exC8conv.messages.drop (exC8conv.messages.length - backlogHardLimit) := by
  refine ⟨by decide, by decide, fun h => ?_⟩
  have hl := congrArg List.length h
  revert hl
  decide

/-- CLAIM C8, amended.  After every trim the backlog holds at most 200
messages; for a pre-trim length over 200 the hard-limit stage discards
exactly the oldest `N - 200` messages and recounts the unread total, after
which the soft-limit stage also applies; and a backlog with no UNREAD
message holds at most 100 messages after trimming. -/
theorem claim_C8_amended :
    (∀ c : Conversation, (trimBacklog c).messages.length ≤ backlogHardLimit) ∧
    (∀ c : Conversation, backlogHardLimit < c.messages.length →
      trimBacklog c = trimBacklog { c with
        messages := c.messages.drop (c.messages.length - backlogHardLimit),
        numUnread := (countUnread (c.messages.drop (c.messages.length - backlogHardLimit)) : Int) }) ∧
    (∀ c : Conversation, countUnread c.messages = 0 →
      (trimBacklog c).messages.length ≤ backlogSoftLimit) := by
  refine ⟨trimBacklog_length_le, trimBacklog_hard, fun c h0 => ?_⟩
  by_cases h : backlogHardLimit < c.messages.length
  · rw [trimBacklog_hard c h]
    apply trimBacklog_no_unread_le_soft_aux
    · simp only []
      have := countUnread_drop_le c.messages (c.messages.length - backlogHardLimit)
      omega
    · simp only [List.length_drop]
      omega
  · exact trimBacklog_no_unread_le_soft_aux c h0 (by omega)

/-- Witness for the amended C8 at the concrete 201-message backlog. -/
theorem claim_C8_witness :
    (trimBacklog exC8conv).messages.length ≤ backlogSoftLimit ∧
    trimBacklog exC8conv = trimBacklog { exC8conv with
      messages := exC8conv.messages.drop (exC8conv.messages.length - backlogHardLimit),
      numUnread := (countUnread (exC8conv.messages.drop (exC8conv.messages.length - backlogHardLimit)) : Int) } :=
  ⟨claim_C8_amended.2.2 exC8conv (by decide), claim_C8_amended.2.1 exC8conv (by decide)⟩

/-- What `replaceLastMatch` does: some matching message `m` of the backlog
is replaced by the update, the decrement flag is exactly the
UNREAD-to-non-UNREAD crossing for `m`, and the unread count changes by the
difference of the two indicator values. -/
theorem replaceLastMatch_spec (upd : Message) :
    ∀ (l l' : List Message) (dec : Bool), replaceLastMatch upd l = some (l', dec) →
      ∃ m, m ∈ l ∧ messageMatches m upd = true ∧
        dec = (decide (m.status = MessageStatus.UNREAD) &&
          decide (upd.status ≠ MessageStatus.UNREAD)) ∧
        (countUnread l' : Int) = (countUnread l : Int)
          + (if upd.status = MessageStatus.UNREAD then 1 else 0)
          - (if m.status = MessageStatus.UNREAD then 1 else 0) := by
  intro l
  induction l with
  | nil => intro l' dec h; simp [replaceLastMatch] at h
  | cons m rest ih =>
    intro l' dec h
    cases hr : replaceLastMatch upd rest with
    | some p =>
      obtain ⟨rest', d⟩ := p
      simp only [replaceLastMatch, hr] at h
      obtain ⟨hl', hdec⟩ := Prod.mk.injEq .. ▸ Option.some.inj h
      obtain ⟨m', hmem, hmatch, hdec', hcount⟩ := ih rest' d hr
      refine ⟨m', List.mem_cons_of_mem m hmem, hmatch, by rw [← hdec]; exact hdec', ?_⟩
      rw [← hl']
      rw [countUnread_cons, countUnread_cons]
      push_cast
      split_ifs at * <;> omega
    | none =>
      simp only [replaceLastMatch, hr] at h
      by_cases hmatch : messageMatches m upd = true
      · rw [if_pos hmatch] at h
        obtain ⟨hl', hdec⟩ := Prod.mk.injEq .. ▸ Option.some.inj h
        refine ⟨m, List.mem_cons_self m rest, hmatch, by rw [← hdec], ?_⟩
        rw [← hl']
        rw [countUnread_cons, countUnread_cons]
        push_cast
        split_ifs <;> omega
      · rw [if_neg hmatch] at h
        exact absurd h (by simp)

/-- The unread-counter invariant survives trimming when the backlog is
within the hard limit. -/
theorem trimBacklog_inv_aux (c : Conversation)
    (hinv : c.numUnread = (countUnread c.messages : Int))
    (hle : c.messages.length ≤ backlogHardLimit) :
    (trimBacklog c).numUnread = (countUnread (trimBacklog c).messages : Int) := by
  by_cases hsmall : c.messages.length ≤ backlogSoftLimit
  · rw [trimBacklog_small c hsmall]
    exact hinv
  · rw [trimBacklog_soft c (by omega) hle]
    simpa [countUnread_drop_findKeepIndex] using hinv

/-- The unread-counter invariant survives trimming in general: above the
hard limit the trim re-establishes it by recounting. -/
theorem trimBacklog_inv (c : Conversation)
    (hinv : c.numUnread = (countUnread c.messages : Int)) :
    (trimBacklog c).numUnread = (countUnread (trimBacklog c).messages : Int) := by
  by_cases h : backlogHardLimit < c.messages.length
  · rw [trimBacklog_hard c h]
    apply trimBacklog_inv_aux
    · rfl
    · simp only [List.length_drop]
      omega
  · exact trimBacklog_inv_aux c hinv (by omega)

/-- A one-message backlog holding an inbound READ message, with a correct
unread counter of zero. -/
def exC4conv : Conversation :=
  mkConv [mkInbound MessageStatus.READ 7] 0

/-- COUNTEREXAMPLE to C4.  `UpdateMessage` does not adjust the counter
when a replaced message crosses the boundary in the non-UNREAD-to-UNREAD
direction: updating the READ message to UNREAD leaves `numUnread = 0`
while the backlog now holds one UNREAD message. -/
theorem claim_C4_counterexample :
    exC4conv.numUnread = (countUnread exC4conv.messages : Int) ∧
    (UpdateMessage exC4conv (mkInbound MessageStatus.UNREAD 7)).numUnread = 0 ∧
    countUnread (UpdateMessage exC4conv (mkInbound MessageStatus.UNREAD 7)).messages = 1 := by
  refine ⟨by decide, by decide, by decide⟩

/-- CLAIM C4, amended.  The invariant `numUnread = |{m : m.status =
UNREAD}|` is preserved by `AddMessage` and by trimming, and by
`UpdateMessage` provided the replaced message does not cross from
non-UNREAD to UNREAD; in that remaining direction the counter is not
adjusted and the invariant can break. -/
theorem claim_C4_amended :
    (∀ (c : Conversation) (msg : Message),
       c.numUnread = (countUnread c.messages : Int) →
       (AddMessage c msg).numUnread = (countUnread (AddMessage c msg).messages : Int)) ∧
    (∀ c : Conversation,
       c.numUnread = (countUnread c.messages : Int) →
       (trimBacklog c).numUnread = (countUnread (trimBacklog c).messages : Int)) ∧
    (∀ (c : Conversation) (upd : Message),
       c.numUnread = (countUnread c.messages : Int) →
       (∀ m ∈ c.messages, messageMatches m upd = true →
          m.status = MessageStatus.UNREAD ∨ upd.status ≠ MessageStatus.UNREAD) →
       (UpdateMessage c upd).numUnread = (countUnread (UpdateMessage c upd).messages : Int)) := by
  refine ⟨fun c msg hinv => ?_, trimBacklog_inv, fun c upd hinv hcross => ?_⟩
  · unfold AddMessage
    cases hv : validateMessage c msg with
    | error e => exact hinv
    | ok u =>
      apply trimBacklog_inv
      show c.numUnread + (if msg.status = MessageStatus.UNREAD then (1 : Int) else 0) =
        (countUnread (c.messages ++ [msg]) : Int)
      rw [countUnread_append, hinv]
      have hm : countUnread [msg] = (if msg.status = MessageStatus.UNREAD then 1 else 0) := by
        by_cases h : msg.status = MessageStatus.UNREAD <;> simp [countUnread, h]
      rw [hm]
      push_cast
      split_ifs <;> omega
  · unfold UpdateMessage
    cases hv : validateMessage c upd with
    | error e => exact hinv
    | ok u =>
      cases hrep : replaceLastMatch upd c.messages with
      | none => exact hinv
      | some p =>
        obtain ⟨msgs, dec⟩ := p
        obtain ⟨m, hmem, hmatch, hdec, hcount⟩ :=
          replaceLastMatch_spec upd c.messages msgs dec hrep
        have hc := hcross m hmem hmatch
        show c.numUnread - (if dec = true then (1 : Int) else 0) = (countUnread msgs : Int)
        rw [hinv]
        rcases hc with hc | hc
        · rw [if_pos hc] at hcount
          by_cases hu : upd.status = MessageStatus.UNREAD
          · rw [if_pos hu] at hcount
            have hd : dec = false := by simp [hdec, hu]
            rw [hd]
            simp only [Bool.false_eq_true, if_false]
            omega
          · rw [if_neg hu] at hcount
            have hd : dec = true := by simp [hdec, hc, hu]
            rw [hd]
            simp only [if_pos]
            omega
        · rw [if_neg hc] at hcount
          by_cases hms : m.status = MessageStatus.UNREAD
          · rw [if_pos hms] at hcount
            have hd : dec = true := by simp [hdec, hms, hc]
            rw [hd]
            simp only [if_pos]
            omega
          · rw [if_neg hms] at hcount
            have hd : dec = false := by simp [hdec, hms]
            rw [hd]
            simp only [Bool.false_eq_true, if_false]
            omega

/-- Witness for the amended C4: updating the UNREAD message of a
one-message backlog to READ keeps the counter equal to the unread count. -/
theorem claim_C4_witness :
    (UpdateMessage (mkConv [mkInbound MessageStatus.UNREAD 7] 1)
      (mkInbound MessageStatus.READ 7)).numUnread =
    (countUnread (UpdateMessage (mkConv [mkInbound MessageStatus.UNREAD 7] 1)
      (mkInbound MessageStatus.READ 7)).messages : Int) :=
  claim_C4_amended.2.2 (mkConv [mkInbound MessageStatus.UNREAD 7] 1)
    (mkInbound MessageStatus.READ 7) (by decide)
    (fun m hm _ => by
      simp only [mkConv] at hm
      rw [List.mem_singleton] at hm
      subst hm
      left
      rfl)

/-- The downward scan returns the first UNREAD message when every message
scanned before it is neither UNREAD nor READ (self-sent messages with
other statuses do not stop it). -/
theorem scanForLastRecv_finds :
    ∀ (l1 : List Message) (m : Message) (l2 : List Message),
      (∀ x ∈ l1, x.status ≠ MessageStatus.UNREAD ∧ x.status ≠ MessageStatus.READ) →
      m.status = MessageStatus.UNREAD →
      scanForLastRecv (l1 ++ m :: l2) = some m := by
  intro l1
  induction l1 with
  | nil => intro m l2 _ hm; simp [scanForLastRecv, hm]
  | cons x xs ih =>
    intro m l2 hno hm
    have hx := hno x (List.mem_cons_self x xs)
    rw [List.cons_append, scanForLastRecv, if_neg hx.1, if_neg hx.2]
    exact ih m l2 (fun y hy => hno y (List.mem_cons_of_mem x hy)) hm

/-- The downward scan finds nothing in a backlog with no UNREAD message. -/
theorem scanForLastRecv_none :
    ∀ l : List Message, (∀ x ∈ l, x.status ≠ MessageStatus.UNREAD) →
      scanForLastRecv l = none := by
  intro l
  induction l with
  | nil => intro _; rfl
  | cons x xs ih =>
    intro hno
    rw [scanForLastRecv, if_neg (hno x (List.mem_cons_self x xs))]
    by_cases hx : x.status = MessageStatus.READ
    · rw [if_pos hx]
    · rw [if_neg hx]
      exact ih (fun y hy => hno y (List.mem_cons_of_mem x hy))

/-- COUNTEREXAMPLE to C6.  The scan does not stop at the first self-sent
message: with a backlog of an inbound UNREAD message followed by a
self-sent SENT message, the code skips the self-sent message and
dispatches for the UNREAD one, while the scan described by the claim
(stopping at the first self-sent message) finds nothing. -/
theorem claim_C6_counterexample :
    MarkAsRead (mkConv [mkInbound MessageStatus.UNREAD 7,
      mkOutbound MessageStatus.SENT 8] 1) = .dispatched "bob" 7 ∧
    scanForLastRecvSpec ([mkInbound MessageStatus.UNREAD 7,
      mkOutbound MessageStatus.SENT 8]).reverse = none := by
  refine ⟨by decide, by decide⟩

/-- CLAIM C6, amended.  `MarkAsRead` scans the backlog from newest to
oldest and selects the most recent UNREAD message, stopping only at the
first message with status READ (a self-sent message with any other status
is skipped, not a stopping point); if an UNREAD inbound message is found
it dispatches `markConversationRead` with that message sender and
identifier, and if no UNREAD message exists it dispatches nothing and
returns without error. -/
theorem claim_C6_amended :
    (∀ (c : Conversation) (pre : List Message) (m : Message) (post : List Message),
       c.messages = pre ++ m :: post →
       m.status = MessageStatus.UNREAD →
       (∀ x ∈ post, x.status ≠ MessageStatus.UNREAD ∧ x.status ≠ MessageStatus.READ) →
       validateMessage c m = .ok () →
       (m.sender.map Entity.isSelf).getD false = false →
       MarkAsRead c = .dispatched ((m.sender.map Entity.address).getD "") m.identifier) ∧
    (∀ c : Conversation, (∀ x ∈ c.messages, x.status ≠ MessageStatus.UNREAD) →
       MarkAsRead c = .noDispatch) := by
  constructor
  · intro c pre m post hsplit hm hpost hvalid hnotself
    have hrev : c.messages.reverse = post.reverse ++ m :: pre.reverse := by
      rw [hsplit]
      simp
    have hscan : scanForLastRecv c.messages.reverse = some m := by
      rw [hrev]
      exact scanForLastRecv_finds post.reverse m pre.reverse
        (fun x hx => hpost x (List.mem_reverse.mp hx)) hm
    rw [MarkAsRead, hscan]
    unfold MarkAsReadBefore
    simp only [hvalid, hnotself]
    simp
  · intro c hno
    have hscan : scanForLastRecv c.messages.reverse = none :=
      scanForLastRecv_none c.messages.reverse
        (fun x hx => hno x (List.mem_reverse.mp hx))
    rw [MarkAsRead, hscan]

/-- Witness for the amended C6: a backlog with an inbound UNREAD message
followed by a self-sent DELIVERED message dispatches for the UNREAD one,
and an empty backlog dispatches nothing. -/
theorem claim_C6_witness :
    MarkAsRead (mkConv [mkInbound MessageStatus.UNREAD 3,
      mkOutbound MessageStatus.DELIVERED 4] 1) = .dispatched "bob" 3 ∧
    MarkAsRead (mkConv [] 0) = .noDispatch := by
  constructor
  · have h := claim_C6_amended.1 (mkConv [mkInbound MessageStatus.UNREAD 3,
      mkOutbound MessageStatus.DELIVERED 4] 1) [] (mkInbound MessageStatus.UNREAD 3)
      [mkOutbound MessageStatus.DELIVERED 4] rfl rfl (by decide) rfl rfl
    exact h
  · exact claim_C6_amended.2 (mkConv [] 0) (by decide)

/-- CLAIM C1.  Duel resolution is a pure function applying the ordered
rules: a closed current connection is replaced; a same-direction candidate
replaces; a current connection older than 30 seconds is replaced;
otherwise the kept session is the one whose direction equals
`preferOutbound := myLabel < peerLabel`.  For two distinct labels `a < b`
and fresh opposite-direction sessions, the endpoint with label `a` keeps
its outbound session and the endpoint with label `b` keeps its inbound
session — both endpoints keep the session dialed by the peer with the
lexicographically smaller label and close the other. -/
theorem claim_C1_duel_resolution :
    (∀ (c : ContactState) (cur conn : OpenConnection) (now : Nat),
       c.connection = some cur →
       (cur.closed = true → shouldReplaceConnection c conn now = true) ∧
       (cur.closed = false → cur.client = conn.client →
          shouldReplaceConnection c conn now = true) ∧
       (cur.closed = false → cur.client ≠ conn.client → 30 < now - c.timeConnected →
          shouldReplaceConnection c conn now = true) ∧
       (cur.closed = false → cur.client ≠ conn.client → now - c.timeConnected ≤ 30 →
          shouldReplaceConnection c conn now =
            (decide (conn.myHostname.data < conn.otherHostname.data) == conn.client))) ∧
    (∀ (a b : String), a.data < b.data →
      ∀ (cSA : ContactState) (cA connA : OpenConnection) (nowA : Nat),
        cSA.connection = some cA →
        cA.closed = false →
        cA.client = !connA.client →
        nowA - cSA.timeConnected ≤ 30 →
        connA.myHostname = a → connA.otherHostname = b →
        (if shouldReplaceConnection cSA connA nowA then connA else cA).client = true) ∧
    (∀ (a b : String), a.data < b.data →
      ∀ (cSB : ContactState) (cB connB : OpenConnection) (nowB : Nat),
        cSB.connection = some cB →
        cB.closed = false →
        cB.client = !connB.client →
        nowB - cSB.timeConnected ≤ 30 →
        connB.myHostname = b → connB.otherHostname = a →
        (if shouldReplaceConnection cSB connB nowB then connB else cB).client = false) := by
  refine ⟨fun c cur conn now hconn => ⟨fun h1 => ?_, fun h1 h2 => ?_, fun h1 h2 h3 => ?_,
    fun h1 h2 h3 => ?_⟩, fun a b hab cSA cA connA nowA hconn hcac hdir hage hmy hoth => ?_,
    fun a b hab cSB cB connB nowB hconn hcbc hdir hage hmy hoth => ?_⟩
  · simp only [shouldReplaceConnection, hconn, h1, if_true]
  · simp only [shouldReplaceConnection, hconn, h1, Bool.false_eq_true, if_false]
    rw [if_pos (by simp [h2] : (cur.client == conn.client) = true)]
  · simp only [shouldReplaceConnection, hconn, h1, Bool.false_eq_true, if_false]
    rw [if_neg (by simp [h2] : ¬ (cur.client == conn.client) = true)]
    rw [if_pos h3]
  · simp only [shouldReplaceConnection, hconn, h1, Bool.false_eq_true, if_false]
    rw [if_neg (by simp [h2] : ¬ (cur.client == conn.client) = true)]
    rw [if_neg (by omega : ¬ (30 < now - c.timeConnected))]
    cases hd : (decide (conn.myHostname.data < conn.otherHostname.data) == conn.client) <;> simp
  · have hrep : shouldReplaceConnection cSA connA nowA =
        (decide (a.data < b.data) == connA.client) := by
      simp only [shouldReplaceConnection, hconn, hcac, Bool.false_eq_true, if_false]
      rw [if_neg (by rw [hdir]; simp : ¬ (cA.client == connA.client) = true)]
      rw [if_neg (by omega : ¬ (30 < nowA - cSA.timeConnected))]
      rw [hmy, hoth]
      cases hd : (decide (a.data < b.data) == connA.client) <;> simp
    rw [hrep, decide_eq_true hab]
    cases hc : connA.client
    · simp [hc, hdir]
    · simp [hc]
  · have hrep : shouldReplaceConnection cSB connB nowB =
        (decide (b.data < a.data) == connB.client) := by
      simp only [shouldReplaceConnection, hconn, hcbc, Bool.false_eq_true, if_false]
      rw [if_neg (by rw [hdir]; simp : ¬ (cB.client == connB.client) = true)]
      rw [if_neg (by omega : ¬ (30 < nowB - cSB.timeConnected))]
      rw [hmy, hoth]
      cases hd : (decide (b.data < a.data) == connB.client) <;> simp
    rw [hrep, decide_eq_false (lt_asymm hab : ¬ b.data < a.data)]
    cases hc : connB.client
    · simp [hc]
    · simp [hc, hdir]

/-- A contact state of label-`a` endpoint holding a fresh inbound current
connection while dueling with a new outbound one. -/
def exC1stateA : ContactState :=
  ⟨⟨"bbbbbbbbbbbbbbbb.onion", "nick", "", "", ConfigContactRequest.empty⟩,
   ContactStatus.ONLINE, true,
   some ⟨2, false, true, false, "aaaaaaaaaaaaaaaa", "bbbbbbbbbbbbbbbb"⟩,
   0, false,
   ⟨"bbbbbbbbbbbbbbbb.onion", "nick", "", "", ConfigContactRequest.empty⟩⟩

/-- A contact state of the label-`b` endpoint holding a fresh inbound
current connection while dueling with a new outbound one. -/
def exC1stateB : ContactState :=
  ⟨⟨"aaaaaaaaaaaaaaaa.onion", "nick", "", "", ConfigContactRequest.empty⟩,
   ContactStatus.ONLINE, true,
   some ⟨4, false, true, false, "bbbbbbbbbbbbbbbb", "aaaaaaaaaaaaaaaa"⟩,
   0, false,
   ⟨"aaaaaaaaaaaaaaaa.onion", "nick", "", "", ConfigContactRequest.empty⟩⟩

/-- Witness for C1: with labels `aaaa… < bbbb…` and fresh
opposite-direction duels at both endpoints, endpoint `a` keeps the
outbound session and endpoint `b` keeps the inbound session. -/
theorem claim_C1_witness :
    (if shouldReplaceConnection exC1stateA
        ⟨3, true, true, false, "aaaaaaaaaaaaaaaa", "bbbbbbbbbbbbbbbb"⟩ 10
     then (⟨3, true, true, false, "aaaaaaaaaaaaaaaa", "bbbbbbbbbbbbbbbb"⟩ : OpenConnection)
     else ⟨2, false, true, false, "aaaaaaaaaaaaaaaa", "bbbbbbbbbbbbbbbb"⟩).client = true ∧
    (if shouldReplaceConnection exC1stateB
        ⟨5, true, true, false, "bbbbbbbbbbbbbbbb", "aaaaaaaaaaaaaaaa"⟩ 10
     then (⟨5, true, true, false, "bbbbbbbbbbbbbbbb", "aaaaaaaaaaaaaaaa"⟩ : OpenConnection)
     else ⟨4, false, true, false, "bbbbbbbbbbbbbbbb", "aaaaaaaaaaaaaaaa"⟩).client = false := by
  constructor
  · exact claim_C1_duel_resolution.2.1 "aaaaaaaaaaaaaaaa" "bbbbbbbbbbbbbbbb" (by decide)
      exC1stateA ⟨2, false, true, false, "aaaaaaaaaaaaaaaa", "bbbbbbbbbbbbbbbb"⟩
      ⟨3, true, true, false, "aaaaaaaaaaaaaaaa", "bbbbbbbbbbbbbbbb"⟩ 10
      rfl rfl rfl (by omega) rfl rfl
  · exact claim_C1_duel_resolution.2.2 "aaaaaaaaaaaaaaaa" "bbbbbbbbbbbbbbbb" (by decide)
      exC1stateB ⟨4, false, true, false, "bbbbbbbbbbbbbbbb", "aaaaaaaaaaaaaaaa"⟩
      ⟨5, true, true, false, "bbbbbbbbbbbbbbbb", "aaaaaaaaaaaaaaaa"⟩ 10
      rfl rfl rfl (by omega) rfl rfl

/-- A contact with no pending request, dials enabled, currently OFFLINE
with no connection, that has not been told it is a known contact. -/
def exC5contact : ContactState :=
  ⟨⟨"bbbbbbbbbbbbbbbb.onion", "nick", "", "", ConfigContactRequest.empty⟩,
   ContactStatus.OFFLINE, true, none, 0, false,
   ⟨"bbbbbbbbbbbbbbbb.onion", "nick", "", "", ConfigContactRequest.empty⟩⟩

/-- An authenticated outbound connection to that contact. -/
def exC5conn : OpenConnection :=
  ⟨1, true, true, false, "aaaaaaaaaaaaaaaa", "bbbbbbbbbbbbbbbb"⟩

/-- CLAIM C5 (code behaviour at the failing input).  When an outbound
session authenticates with `isKnownContact = false` and the contact has no
pending request, `setConnection` closes the session and returns an error —
but the contact status does not move to REJECTED and
`shouldMakeOutboundConnections` still returns true, so outbound dial
attempts continue, contrary to the claim (and to the intent recorded in
the adjacent source comment). -/
theorem claim_C5_code_behavior :
    ((setConnection exC5contact exC5conn 100 "t").err).isSome = true ∧
    (setConnection exC5contact exC5conn 100 "t").conn.closed = true ∧
    (setConnection exC5contact exC5conn 100 "t").contact = exC5contact ∧
    (setConnection exC5contact exC5conn 100 "t").contact.status ≠ ContactStatus.REJECTED ∧
    shouldMakeOutboundConnections (setConnection exC5contact exC5conn 100 "t").contact = true := by
  refine ⟨by decide, by decide, by decide, by decide, by decide⟩

/-- CLAIM C7.  While a contact status is REJECTED the agent never
initiates an outbound dial: `shouldMakeOutboundConnections` returns false
for a REJECTED contact; every connection-loop iteration spawns an
outbound attempt only when it returned true; and an iteration of the loop
on a REJECTED contact with no connection and no incoming session spawns
no dial, keeps the status REJECTED and publishes no ContactUpdate. -/
theorem claim_C7_rejected_no_dial :
    (∀ c : ContactState, c.status = ContactStatus.REJECTED →
       shouldMakeOutboundConnections c = false) ∧
    (∀ (c : ContactState) (ev : LoopEvent) (now : Nat) (nowStr : String),
       (contactConnectionStep c ev now nowStr).dialSpawned = true →
       shouldMakeOutboundConnections c = true) ∧
    (∀ (c : ContactState) (ev : LoopEvent) (now : Nat) (nowStr : String),
       c.status = ContactStatus.REJECTED → c.connection = none →
       (ev = LoopEvent.connNil ∨ ev = LoopEvent.connClosed) →
       (contactConnectionStep c ev now nowStr).dialSpawned = false ∧
       (contactConnectionStep c ev now nowStr).contact.status = ContactStatus.REJECTED ∧
       (contactConnectionStep c ev now nowStr).publishedUpdate = false) := by
  refine ⟨fun c h => by simp [shouldMakeOutboundConnections, h],
    fun c ev now nowStr h => ?_, fun c ev now nowStr hstat hconn hev => ?_⟩
  · cases ev <;>
      (simp only [contactConnectionStep, Bool.and_eq_true] at h; exact h.2)
  · rcases hev with hev | hev <;> subst hev
    · exact ⟨by simp [contactConnectionStep, shouldMakeOutboundConnections, hstat],
        hstat, rfl⟩
    · have hclear : clearConnection c none nowStr = (c, false) := by
        simp [clearConnection, hconn]
      exact ⟨by simp [contactConnectionStep, shouldMakeOutboundConnections, hstat],
        by simp [contactConnectionStep, hclear, hstat],
        by simp [contactConnectionStep, hclear]⟩

/-- A REJECTED contact with connections enabled and no current session. -/
def exC7contact : ContactState :=
  ⟨⟨"bbbbbbbbbbbbbbbb.onion", "nick", "", "", ConfigContactRequest.empty⟩,
   ContactStatus.REJECTED, true, none, 0, false,
   ⟨"bbbbbbbbbbbbbbbb.onion", "nick", "", "", ConfigContactRequest.empty⟩⟩

/-- Witness for C7: the concrete REJECTED contact produces no dial and no
status change when its connection loop runs. -/
theorem claim_C7_witness :
    shouldMakeOutboundConnections exC7contact = false ∧
    (contactConnectionStep exC7contact LoopEvent.connNil 5 "t").dialSpawned = false ∧
    (contactConnectionStep exC7contact LoopEvent.connNil 5 "t").contact.status =
      ContactStatus.REJECTED ∧
    (contactConnectionStep exC7contact LoopEvent.connNil 5 "t").publishedUpdate = false := by
  refine ⟨claim_C7_rejected_no_dial.1 exC7contact rfl, ?_, ?_, ?_⟩
  · exact (claim_C7_rejected_no_dial.2.2 exC7contact LoopEvent.connNil 5 "t"
      rfl rfl (Or.inl rfl)).1
  · exact (claim_C7_rejected_no_dial.2.2 exC7contact LoopEvent.connNil 5 "t"
      rfl rfl (Or.inl rfl)).2.1
  · exact (claim_C7_rejected_no_dial.2.2 exC7contact LoopEvent.connNil 5 "t"
      rfl rfl (Or.inl rfl)).2.2

/-- CLAIM C10.  Whenever `setConnection` returns an error, the contact
state — current connection, status, data and persisted config copy — is
unchanged and no ContactUpdate event or contact-request message is
produced; the candidate connection is closed, except in the
duplicate-assignment case, where the candidate is the current connection
itself and is left untouched (hence open and still current). -/
theorem claim_C10_error_preserves (c : ContactState) (conn : OpenConnection)
    (now : Nat) (nowStr : String)
    (herr : (setConnection c conn now nowStr).err.isSome = true) :
    (setConnection c conn now nowStr).contact = c ∧
    (setConnection c conn now nowStr).publishedUpdate = false ∧
    (setConnection c conn now nowStr).sentContactRequest = false ∧
    (if c.connection.map OpenConnection.id = some conn.id
     then (setConnection c conn now nowStr).conn = conn
     else (setConnection c conn now nowStr).conn = conn.doClose) := by
  have hadopt : ∀ (x : ContactState), (adoptConnection x conn now nowStr).err = none :=
    fun x => rfl
  by_cases h1 : c.connection.map OpenConnection.id = some conn.id
  · have hout : setConnection c conn now nowStr =
        ⟨c, conn, some "Duplicate assignment of connection", false, false⟩ := by
      simp only [setConnection, if_pos h1]
    rw [hout, if_pos h1]
    exact ⟨rfl, rfl, rfl, rfl⟩
  · by_cases h2 : (!conn.isAuthed || conn.closed) = true
    · have hout : setConnection c conn now nowStr =
          ⟨c, conn.doClose, some "Connection is not in a valid state to assign", false, false⟩ := by
        simp only [setConnection, if_neg h1, if_pos h2]
      rw [hout, if_neg h1]
      exact ⟨rfl, rfl, rfl, rfl⟩
    · by_cases h3 : c.data.hostname.take 16 ≠ conn.otherHostname
      · have hout : setConnection c conn now nowStr =
            ⟨c, conn.doClose, some "Connection hostname does not match contact hostname", false, false⟩ := by
          simp only [setConnection, if_neg h1, if_neg h2, if_pos h3]
        rw [hout, if_neg h1]
        exact ⟨rfl, rfl, rfl, rfl⟩
      · by_cases h4 : (conn.client && !c.outboundConnAuthKnown && !c.data.request.pending) = true
        · have hout : setConnection c conn now nowStr =
              ⟨c, conn.doClose, some "Outbound connection says we are not a known contact", false, false⟩ := by
            simp only [setConnection, if_neg h1, if_neg h2, if_neg h3, if_pos h4]
          rw [hout, if_neg h1]
          exact ⟨rfl, rfl, rfl, rfl⟩
        · cases hc : c.connection with
          | none =>
            exfalso
            have hout : setConnection c conn now nowStr = adoptConnection c conn now nowStr := by
              simp only [setConnection, if_neg h2, if_neg h3, if_neg h4, hc]
              rw [if_neg (by simp :
                ¬ (Option.map OpenConnection.id (none : Option OpenConnection) = some conn.id))]
            rw [hout, Option.isSome_iff_exists] at herr
            obtain ⟨e, he⟩ := herr
            rw [hadopt c] at he
            exact Option.noConfusion he
          | some cur =>
            have h1c : ¬ (Option.map OpenConnection.id (some cur) = some conn.id) := by
              rw [← hc]
              exact h1
            by_cases h5 : shouldReplaceConnection c conn now = true
            · exfalso
              have hout : setConnection c conn now nowStr =
                  adoptConnection { c with connection := none } conn now nowStr := by
                simp only [setConnection, if_neg h2, if_neg h3, if_neg h4, hc, if_pos h5]
                rw [if_neg h1c]
              rw [hout, Option.isSome_iff_exists] at herr
              obtain ⟨e, he⟩ := herr
              rw [hadopt _] at he
              exact Option.noConfusion he
            · have hout : setConnection c conn now nowStr =
                  ⟨c, conn.doClose, some "Using existing connection", false, false⟩ := by
                simp only [setConnection, if_neg h2, if_neg h3, if_neg h4, hc, if_neg h5]
                rw [if_neg h1c]
              rw [hout, if_neg h1c]
              exact ⟨rfl, rfl, rfl, rfl⟩

/-- The current connection of the C10 witness contact. -/
def exC10conn : OpenConnection :=
  ⟨6, true, true, false, "aaaaaaaaaaaaaaaa", "bbbbbbbbbbbbbbbb"⟩

/-- An ONLINE contact currently holding `exC10conn`. -/
def exC10contact : ContactState :=
  ⟨⟨"bbbbbbbbbbbbbbbb.onion", "nick", "", "", ConfigContactRequest.empty⟩,
   ContactStatus.ONLINE, true, some exC10conn, 0, true,
   ⟨"bbbbbbbbbbbbbbbb.onion", "nick", "", "", ConfigContactRequest.empty⟩⟩

/-- Witness for C10 at the duplicate-assignment error: re-assigning the
current connection errors, leaves the contact untouched, and does not
close the candidate. -/
theorem claim_C10_witness :
    (setConnection exC10contact exC10conn 5 "t").contact = exC10contact ∧
    (setConnection exC10contact exC10conn 5 "t").publishedUpdate = false ∧
    (setConnection exC10contact exC10conn 5 "t").sentContactRequest = false ∧
    (if exC10contact.connection.map OpenConnection.id = some exC10conn.id
     then (setConnection exC10contact exC10conn 5 "t").conn = exC10conn
     else (setConnection exC10contact exC10conn 5 "t").conn = exC10conn.doClose) :=
  claim_C10_error_preserves exC10contact exC10conn 5 "t" (by decide)

end Ricochet